import Mathlib

/-!
# node-odbc: `src/odbc_statement.cpp`

A shallow embedding of the statement wrapper (`ODBCStatement`) of node-odbc:
the destructor helper `Free`, the four JavaScript-facing methods
(`Execute`, `ExecuteDirect`, `Prepare`, `Bind`), their thread-pool work
functions (`UV_*`) and their loop-thread completion handlers (`UV_After*`).

Calls that leave the file (the ODBC driver, V8, libuv, `ODBC::CallbackSQLError`,
`ODBC::GetParametersFromArray`, the argument macros of `odbc.h`) are either
recorded as events in a log or taken as parameters (`Host`).
-/

namespace NodeOdbc

/-! ## ODBC constants (`sql.h`, `sqlext.h`) -/

/-- The driver's status type, `SQLRETURN` (a signed short). -/
abbrev SQLRETURN := Int

def SQL_SUCCESS : SQLRETURN := 0
def SQL_SUCCESS_WITH_INFO : SQLRETURN := 1
def SQL_NO_DATA : SQLRETURN := 100
def SQL_NEED_DATA : SQLRETURN := 99
def SQL_ERROR : SQLRETURN := -1
def SQL_INVALID_HANDLE : SQLRETURN := -2

/-- The six status codes a work function can record. -/
def statusCodes : List SQLRETURN :=
  [SQL_SUCCESS, SQL_SUCCESS_WITH_INFO, SQL_NO_DATA, SQL_NEED_DATA, SQL_ERROR, SQL_INVALID_HANDLE]

/-- ODBC's own reading of a status code: `SQL_ERROR` ("function failed") and
`SQL_INVALID_HANDLE` ("function failed due to an invalid handle") are the two
codes by which a driver call reports failure. -/
def reportsFailure (ret : SQLRETURN) : Bool :=
  ret == SQL_ERROR || ret == SQL_INVALID_HANDLE

def SQL_HANDLE_STMT : Int := 3
def SQL_PARAM_INPUT : Int := 1

/-- C data type tags of a bound parameter. -/
def SQL_C_CHAR : Int := 1
def SQL_C_SBIGINT : Int := -25
def SQL_C_DOUBLE : Int := 8
def SQL_C_BIT : Int := -7
/-- A tag outside the four of the cleanup switch of `UV_Bind`; the sample null
descriptor carries it. -/
def SQL_C_DEFAULT : Int := 99

/-- Native pointers and driver handles, as addresses. -/
abbrev Ptr := Nat

/-- The null pointer. -/
def NULL : Ptr := 0

/-! ## JavaScript values -/

/-- The JavaScript values that cross the binding. Arrays and functions are
heap references; `ODBCResult` is an instance built by the result constructor
from three wrapped handles. -/
inductive Value where
  | Undefined
  | Null
  | True
  | False
  | Str (s : String)
  | Num (n : Int)
  | Array (ref : Nat)
  | Function (ref : Nat)
  | External (p : Ptr)
  | ODBCResult (hENV hDBC hSTMT : Ptr)
  | TypeError (msg : String)
  deriving DecidableEq, Repr

def Value.IsArray : Value → Bool
  | .Array _ => true
  | _ => false

def Value.IsFunction : Value → Bool
  | .Function _ => true
  | _ => false

/-- Modelled from the spec: the Result Constructor collaborator
(`ODBCResult::constructor_template->GetFunction()->NewInstance(3, args)`, whose
code is in `odbc_result.cpp`): it takes the wrapped environment, connection and
statement handles and gives a new result-set object over them. -/
def NewInstance (args : List Value) : Value :=
  match args with
  | [.External e, .External d, .External s] => .ODBCResult e d s
  | _ => .Undefined

/-! ## Parameter descriptors and driver calls -/

/-- The `Parameter` struct of `odbc.h`, with the fields `UV_Bind` reads. -/
structure Parameter where
  c_type : Int
  type : Int
  size : Int
  buffer : Ptr
  buffer_length : Int
  length : Int
  decimals : Int
  deriving DecidableEq, Repr

/-- The arguments of one `SQLBindParameter` call, as the driver receives them:
`ParameterNumber` is a `SQLUSMALLINT` (16 bits, unsigned) and `ColumnSize` a
`SQLULEN` (unsigned). The last argument of the C call,
`&data->params[i].length`, is the `length` slot of descriptor `i`; it is
recorded by the index `i`. -/
structure BindCall where
  StatementHandle : Ptr
  ParameterNumber : Nat
  InputOutputType : Int
  ValueType : Int
  ParameterType : Int
  ColumnSize : Nat
  DecimalDigits : Int
  ParameterValuePtr : Ptr
  BufferLength : Int
  StrLen_or_IndPtr : Nat
  deriving DecidableEq, Repr

/-- The memory blocks the file releases: the scratch buffer of a statement, the
SQL text of a request, the buffer of descriptor `i` (`data->params[i].buffer`),
the descriptor list (`data->params`), the request record and the libuv request. -/
inductive Block where
  | scratch (p : Ptr)
  | sql (s : String)
  | paramBuffer (i : Nat) (p : Ptr)
  | params
  | data
  | req
  deriving DecidableEq, Repr

/-- What the code does to the outside world, in program order. -/
inductive Event where
  | uv_mutex_lock
  | uv_mutex_unlock
  | SQLFreeHandle (kind : Int) (h : Ptr)
  | SQLExecute (h : Ptr)
  | SQLExecDirect (h : Ptr) (sql : String) (len : Nat)
  | SQLPrepare (h : Ptr) (sql : String) (len : Nat)
  | SQLBindParameter (c : BindCall)
  | free (b : Block)
  | delete (b : Block)
  | ThrowException (e : Value)
  | PersistentNew (cb : Value)
  | GetParametersFromArray (arr : Value)
  | uv_queue_work
  | Ref
  | Unref
  | CallbackSQLError (hENV hDBC hSTMT : Ptr) (cb : Value)
  | ConstructResult (args : List Value)
  | Call (cb : Value) (args : List Value)
  | FatalException
  | Dispose (cb : Value)
  deriving DecidableEq, Repr

/-! ## The statement wrapper -/

/-- The fields of `ODBCStatement` plus `refs_`, the reference count it inherits
from node's `ObjectWrap`. -/
structure ODBCStatement where
  m_hENV : Ptr
  m_hDBC : Ptr
  m_hSTMT : Ptr
  buffer : Ptr
  bufferLength : Int
  colCount : Int
  refs_ : Int
  deriving DecidableEq, Repr

namespace ODBCStatement

/-- `ObjectWrap::Ref`: `refs_++`. -/
def Ref (self : ODBCStatement) : ODBCStatement :=
  { self with refs_ := self.refs_ + 1 }

/-- `ObjectWrap::Unref`: `--refs_`. -/
def Unref (self : ODBCStatement) : ODBCStatement :=
  { self with refs_ := self.refs_ - 1 }

/-- `ODBCStatement::Free` (lines 64-77): the state after the call and the
events of the call. -/
def Free (self : ODBCStatement) : ODBCStatement × List Event :=
  if self.m_hSTMT ≠ NULL then
    ({ self with m_hSTMT := NULL },
      [Event.uv_mutex_lock, Event.SQLFreeHandle SQL_HANDLE_STMT self.m_hSTMT,
        Event.uv_mutex_unlock]
      ++ (if self.bufferLength > 0 then [Event.free (Block.scratch self.buffer)] else []))
  else
    (self, [])

/-- Calling `Free` `n` times in a row: final state and all events. -/
def FreeN : Nat → ODBCStatement → ODBCStatement × List Event
  | 0, self => (self, [])
  | n + 1, self =>
    let r := self.Free
    let r2 := FreeN n r.1
    (r2.1, r.2 ++ r2.2)

end ODBCStatement

/-- How many times the log releases a scratch buffer. -/
def scratchReleases (log : List Event) : Nat :=
  log.countP (fun e => match e with
    | .free (.scratch _) => true
    | _ => false)

/-- How many driver free calls the log has. -/
def driverFrees (log : List Event) : Nat :=
  log.countP (fun e => match e with
    | .SQLFreeHandle _ _ => true
    | _ => false)

/-! ## Collaborators outside the file -/

/-- Everything `odbc_statement.cpp` calls but does not define: the driver entry
points (each gives the status code of the call), the marshaler
`ODBC::GetParametersFromArray` (the descriptor list it builds for an array; its
length is what it stores in `paramCount`), the error translator
`ODBC::CallbackSQLError` (the events it causes), whether invoking a JavaScript
function with given arguments raises, the argument macros `REQ_FUN_ARG` and
`REQ_STR_ARG` of `odbc.h` (either the exception they return with, or the value
they bind), `ret0`, the indeterminate content of the uninitialised local
`SQLRETURN ret` of `UV_Bind`, and `SQLULEN_bits`, the width of the driver's
`SQLLEN`/`SQLULEN` types on the platform (`sqltypes.h`). What the translator's
own callback invocation raises is outside the model: the isolate of a handler
records only the calls the handler makes itself. -/
structure Host where
  SQLExecute : Ptr → SQLRETURN
  SQLExecDirect : Ptr → String → Nat → SQLRETURN
  SQLPrepare : Ptr → String → Nat → SQLRETURN
  SQLBindParameter : BindCall → SQLRETURN
  GetParametersFromArray : Value → List Parameter
  CallbackSQLError : Ptr → Ptr → Ptr → Value → List Event
  raises : Value → List Value → Bool
  REQ_FUN_ARG : Nat → List Value → Except Value Value
  REQ_STR_ARG : Nat → List Value → Except Value String
  ret0 : SQLRETURN
  SQLULEN_bits : Nat

/-- The part of V8 the completion handlers rely on: `try_catch` is the flag of
the `TryCatch` object in scope (`none` while no `TryCatch` has been
constructed), `unhandled` counts the exceptions raised while none was in
scope. A `TryCatch` catches what is raised during its lifetime only. -/
structure Isolate where
  try_catch : Option Bool
  unhandled : Nat
  deriving DecidableEq, Repr

namespace Isolate

/-- A JavaScript exception is raised in a call made from C++. -/
def raise (iso : Isolate) : Isolate :=
  match iso.try_catch with
  | some _ => { iso with try_catch := some true }
  | none => { iso with unhandled := iso.unhandled + 1 }

/-- The declaration `TryCatch try_catch;`: a fresh handler, nothing caught. -/
def TryCatch (iso : Isolate) : Isolate :=
  { iso with try_catch := some false }

/-- The test `try_catch.HasCaught()`. -/
def HasCaught (iso : Isolate) : Bool :=
  iso.try_catch == some true

end Isolate

/-- The call `cb->Call(Context::GetCurrent()->Global(), argc, args)`: the first
`argc` slots of `args` are passed. -/
def Call (h : Host) (cb : Value) (argc : Nat) (args : List Value) (iso : Isolate) :
    Isolate × List Event :=
  (if h.raises cb (args.take argc) then iso.raise else iso, [Event.Call cb (args.take argc)])

/-- The C string `strcpy(data->sql, *sql)` leaves in the request: the UTF-8
text of the argument up to its first NUL. -/
def strcpy (src : String) : String :=
  String.mk (src.toList.takeWhile (fun c => c != Char.ofNat 0))

/-- The C `strlen`: the number of bytes of the UTF-8 text before its first
NUL. -/
def strlen (s : String) : Nat :=
  (strcpy s).utf8ByteSize

/-! ## Requests -/

/-- The record `execute_work_data` of `odbc_statement.h`. The `stmt` pointer of
every request record is the statement the method was called on; it is passed
to the work function and completion handler as `self`. -/
structure execute_work_data where
  cb : Value
  result : SQLRETURN
  deriving DecidableEq, Repr

structure execute_direct_work_data where
  cb : Value
  sql : String
  result : SQLRETURN
  deriving DecidableEq, Repr

structure prepare_work_data where
  cb : Value
  sql : String
  result : SQLRETURN
  deriving DecidableEq, Repr

structure bind_work_data where
  cb : Value
  params : List Parameter
  result : SQLRETURN
  deriving DecidableEq, Repr

/-- The `data` pointer of a libuv request: which of the four records it is
also fixes the pair of functions given to `uv_queue_work`. -/
inductive work_data where
  | execute (d : execute_work_data)
  | executeDirect (d : execute_direct_work_data)
  | prepare (d : prepare_work_data)
  | bind (d : bind_work_data)
  deriving DecidableEq, Repr

/-- A queued `uv_work_t`; `worked` says that its work function has returned. -/
structure uv_work_t where
  data : work_data
  worked : Bool
  deriving DecidableEq, Repr

/-- What a JavaScript-facing method leaves behind: the statement, the requests
it handed to `uv_queue_work`, and its events. -/
structure Submitted where
  self : ODBCStatement
  queued : List uv_work_t
  log : List Event
  deriving DecidableEq, Repr

/-- What a completion handler leaves behind. -/
structure Completed where
  self : ODBCStatement
  log : List Event
  iso : Isolate
  deriving DecidableEq, Repr

/-- The isolate on entry to a completion handler: libuv calls the handler from
the event loop, with no `TryCatch` of this file in scope. -/
def Isolate.entry : Isolate := { try_catch := none, unhandled := 0 }

namespace ODBCStatement

/-! ### Execute (lines 113-202) -/

def Execute (h : Host) (args : List Value) (stmt : ODBCStatement) : Submitted :=
  match h.REQ_FUN_ARG 0 args with
  | .error e => { self := stmt, queued := [], log := [Event.ThrowException e] }
  | .ok cb =>
    let data : execute_work_data := { cb := cb, result := 0 }
    { self := stmt.Ref
      queued := [{ data := work_data.execute data, worked := false }]
      log := [Event.PersistentNew cb, Event.uv_queue_work, Event.Ref] }

def UV_Execute (h : Host) (stmt : ODBCStatement) (data : execute_work_data) :
    execute_work_data × List Event :=
  let ret := h.SQLExecute stmt.m_hSTMT
  ({ data with result := ret }, [Event.SQLExecute stmt.m_hSTMT])

def UV_AfterExecute (h : Host) (data : execute_work_data) (self : ODBCStatement) : Completed :=
  let branch : Isolate × List Event :=
    if data.result = SQL_ERROR then
      (Isolate.entry,
        Event.CallbackSQLError self.m_hENV self.m_hDBC self.m_hSTMT data.cb ::
          h.CallbackSQLError self.m_hENV self.m_hDBC self.m_hSTMT data.cb)
    else
      let args := [Value.External self.m_hENV, Value.External self.m_hDBC,
        Value.External self.m_hSTMT]
      let js_result := NewInstance args
      let args2 := (args.set 0 Value.Null).set 1 js_result
      let r := Call h data.cb 2 args2 Isolate.entry
      (r.1, Event.ConstructResult args :: r.2)
  let iso := branch.1.TryCatch
  let self2 := self.Unref
  { self := self2
    log := branch.2 ++ [Event.Unref]
      ++ (if iso.HasCaught then [Event.FatalException] else [])
      ++ [Event.Dispose data.cb, Event.free Block.data, Event.free Block.req]
    iso := iso }

/-! ### ExecuteDirect (lines 209-306) -/

def ExecuteDirect (h : Host) (args : List Value) (stmt : ODBCStatement) : Submitted :=
  match h.REQ_STR_ARG 0 args with
  | .error e => { self := stmt, queued := [], log := [Event.ThrowException e] }
  | .ok sql =>
    match h.REQ_FUN_ARG 1 args with
    | .error e => { self := stmt, queued := [], log := [Event.ThrowException e] }
    | .ok cb =>
      let data : execute_direct_work_data := { cb := cb, sql := strcpy sql, result := 0 }
      { self := stmt.Ref
        queued := [{ data := work_data.executeDirect data, worked := false }]
        log := [Event.PersistentNew cb, Event.uv_queue_work, Event.Ref] }

def UV_ExecuteDirect (h : Host) (stmt : ODBCStatement) (data : execute_direct_work_data) :
    execute_direct_work_data × List Event :=
  let ret := h.SQLExecDirect stmt.m_hSTMT data.sql (strlen data.sql)
  ({ data with result := ret }, [Event.SQLExecDirect stmt.m_hSTMT data.sql (strlen data.sql)])

def UV_AfterExecuteDirect (h : Host) (data : execute_direct_work_data) (self : ODBCStatement) :
    Completed :=
  let branch : Isolate × List Event :=
    if data.result = SQL_ERROR then
      (Isolate.entry,
        Event.CallbackSQLError self.m_hENV self.m_hDBC self.m_hSTMT data.cb ::
          h.CallbackSQLError self.m_hENV self.m_hDBC self.m_hSTMT data.cb)
    else
      let args := [Value.External self.m_hENV, Value.External self.m_hDBC,
        Value.External self.m_hSTMT]
      let js_result := NewInstance args
      let args2 := (args.set 0 Value.Null).set 1 js_result
      let r := Call h data.cb 2 args2 Isolate.entry
      (r.1, Event.ConstructResult args :: r.2)
  let iso := branch.1.TryCatch
  let self2 := self.Unref
  { self := self2
    log := branch.2 ++ [Event.Unref]
      ++ (if iso.HasCaught then [Event.FatalException] else [])
      ++ [Event.Dispose data.cb, Event.free (Block.sql data.sql), Event.free Block.data,
        Event.free Block.req]
    iso := iso }

/-! ### Prepare (lines 313-405) -/

def Prepare (h : Host) (args : List Value) (stmt : ODBCStatement) : Submitted :=
  match h.REQ_STR_ARG 0 args with
  | .error e => { self := stmt, queued := [], log := [Event.ThrowException e] }
  | .ok sql =>
    match h.REQ_FUN_ARG 1 args with
    | .error e => { self := stmt, queued := [], log := [Event.ThrowException e] }
    | .ok cb =>
      let data : prepare_work_data := { cb := cb, sql := strcpy sql, result := 0 }
      { self := stmt.Ref
        queued := [{ data := work_data.prepare data, worked := false }]
        log := [Event.PersistentNew cb, Event.uv_queue_work, Event.Ref] }

def UV_Prepare (h : Host) (stmt : ODBCStatement) (data : prepare_work_data) :
    prepare_work_data × List Event :=
  let ret := h.SQLPrepare stmt.m_hSTMT data.sql (strlen data.sql)
  ({ data with result := ret }, [Event.SQLPrepare stmt.m_hSTMT data.sql (strlen data.sql)])

def UV_AfterPrepare (h : Host) (data : prepare_work_data) (self : ODBCStatement) : Completed :=
  let branch : Isolate × List Event :=
    if data.result = SQL_ERROR then
      (Isolate.entry,
        Event.CallbackSQLError self.m_hENV self.m_hDBC self.m_hSTMT data.cb ::
          h.CallbackSQLError self.m_hENV self.m_hDBC self.m_hSTMT data.cb)
    else
      let args := [Value.Null, Value.True]
      Call h data.cb 2 args Isolate.entry
  let iso := branch.1.TryCatch
  let self2 := self.Unref
  { self := self2
    log := branch.2 ++ [Event.Unref]
      ++ (if iso.HasCaught then [Event.FatalException] else [])
      ++ [Event.Dispose data.cb, Event.free (Block.sql data.sql), Event.free Block.data,
        Event.free Block.req]
    iso := iso }

/-! ### Bind (lines 412-547) -/

/-- The expression `args[i]`: V8 gives `Undefined` past the end. -/
def argAt (args : List Value) (i : Nat) : Value :=
  args.getD i Value.Undefined

def Bind (h : Host) (args : List Value) (stmt : ODBCStatement) : Submitted :=
  if ¬ (argAt args 0).IsArray then
    { self := stmt, queued := []
      log := [Event.ThrowException (Value.TypeError "Argument 1 must be an Array")] }
  else
    match h.REQ_FUN_ARG 1 args with
    | .error e => { self := stmt, queued := [], log := [Event.ThrowException e] }
    | .ok cb =>
      let data : bind_work_data :=
        { cb := cb, params := h.GetParametersFromArray (argAt args 0), result := 0 }
      { self := stmt.Ref
        queued := [{ data := work_data.bind data, worked := false }]
        log := [Event.PersistentNew cb, Event.GetParametersFromArray (argAt args 0),
          Event.uv_queue_work, Event.Ref] }

/-- The argument list `UV_Bind` gives `SQLBindParameter` for descriptor `i`
(0-based) of the list. The `int` value `i + 1` is converted to the 16-bit
unsigned `ParameterNumber`, and the signed `prm.size` to the unsigned
`ColumnSize`. -/
def bindCall (h : Host) (hSTMT : Ptr) (i : Nat) (prm : Parameter) : BindCall :=
  { StatementHandle := hSTMT
    ParameterNumber := (i + 1) % 2 ^ 16
    InputOutputType := SQL_PARAM_INPUT
    ValueType := prm.c_type
    ParameterType := prm.type
    ColumnSize := (prm.size % 2 ^ h.SQLULEN_bits).toNat
    DecimalDigits := prm.decimals
    ParameterValuePtr := prm.buffer
    BufferLength := prm.buffer_length
    StrLen_or_IndPtr := i }

/-- The first loop of `UV_Bind` (lines 461-487), from index `i` on, over the
descriptors not yet visited, with the current value of `ret`: the final value
of `ret` and the driver calls made, in order. -/
def bindLoop (h : Host) (hSTMT : Ptr) : Nat → List Parameter → SQLRETURN →
    SQLRETURN × List BindCall
  | _, [], ret => (ret, [])
  | i, prm :: rest, _ =>
    let c := bindCall h hSTMT i prm
    let ret := h.SQLBindParameter c
    if ret = SQL_ERROR then (ret, [c])
    else
      let r := bindLoop h hSTMT (i + 1) rest ret
      (r.1, c :: r.2)

/-- One turn of the second loop of `UV_Bind` (lines 493-500). -/
def freeParam (i : Nat) (prm : Parameter) : List Event :=
  if prm.buffer ≠ NULL then
    if prm.c_type = SQL_C_CHAR then [Event.free (Block.paramBuffer i prm.buffer)]
    else if prm.c_type = SQL_C_SBIGINT then [Event.delete (Block.paramBuffer i prm.buffer)]
    else if prm.c_type = SQL_C_DOUBLE then [Event.delete (Block.paramBuffer i prm.buffer)]
    else if prm.c_type = SQL_C_BIT then [Event.delete (Block.paramBuffer i prm.buffer)]
    else []
  else []

/-- The second loop of `UV_Bind` (lines 492-501), from index `i` on. -/
def freeLoop : Nat → List Parameter → List Event
  | _, [] => []
  | i, prm :: rest => freeParam i prm ++ freeLoop (i + 1) rest

def UV_Bind (h : Host) (stmt : ODBCStatement) (data : bind_work_data) :
    bind_work_data × List Event :=
  let r := bindLoop h stmt.m_hSTMT 0 data.params h.ret0
  ({ data with result := r.1 },
    r.2.map Event.SQLBindParameter ++ freeLoop 0 data.params ++ [Event.free Block.params])

def UV_AfterBind (h : Host) (data : bind_work_data) (self : ODBCStatement) : Completed :=
  let branch : Isolate × List Event :=
    if data.result = SQL_ERROR then
      (Isolate.entry,
        Event.CallbackSQLError self.m_hENV self.m_hDBC self.m_hSTMT data.cb ::
          h.CallbackSQLError self.m_hENV self.m_hDBC self.m_hSTMT data.cb)
    else
      let args := [Value.Null, Value.True]
      Call h data.cb 2 args Isolate.entry
  let iso := branch.1.TryCatch
  let self2 := self.Unref
  { self := self2
    log := branch.2 ++ [Event.Unref]
      ++ (if iso.HasCaught then [Event.FatalException] else [])
      ++ [Event.Dispose data.cb, Event.free Block.data, Event.free Block.req]
    iso := iso }

end ODBCStatement

/-! ## The dispatcher (libuv) -/

/-- The four operations. -/
inductive Op where
  | Execute
  | ExecuteDirect
  | Prepare
  | Bind
  deriving DecidableEq, Repr

/-- The JavaScript-facing method of an operation. -/
def submit (h : Host) : Op → List Value → ODBCStatement → Submitted
  | .Execute => ODBCStatement.Execute h
  | .ExecuteDirect => ODBCStatement.ExecuteDirect h
  | .Prepare => ODBCStatement.Prepare h
  | .Bind => ODBCStatement.Bind h

/-- The work function libuv runs for a request on a pool thread. -/
def work (h : Host) (stmt : ODBCStatement) : work_data → work_data × List Event
  | .execute d => let r := ODBCStatement.UV_Execute h stmt d; (.execute r.1, r.2)
  | .executeDirect d => let r := ODBCStatement.UV_ExecuteDirect h stmt d; (.executeDirect r.1, r.2)
  | .prepare d => let r := ODBCStatement.UV_Prepare h stmt d; (.prepare r.1, r.2)
  | .bind d => let r := ODBCStatement.UV_Bind h stmt d; (.bind r.1, r.2)

/-- The completion handler libuv runs for a request on the loop thread. -/
def after (h : Host) (stmt : ODBCStatement) : work_data → Completed
  | .execute d => ODBCStatement.UV_AfterExecute h d stmt
  | .executeDirect d => ODBCStatement.UV_AfterExecuteDirect h d stmt
  | .prepare d => ODBCStatement.UV_AfterPrepare h d stmt
  | .bind d => ODBCStatement.UV_AfterBind h d stmt

/-- The status a request record holds. -/
def work_data.result : work_data → SQLRETURN
  | .execute d => d.result
  | .executeDirect d => d.result
  | .prepare d => d.result
  | .bind d => d.result

/-- The same request record with another recorded status. -/
def work_data.withResult : work_data → SQLRETURN → work_data
  | .execute d, r => .execute { d with result := r }
  | .executeDirect d, r => .executeDirect { d with result := r }
  | .prepare d, r => .prepare { d with result := r }
  | .bind d, r => .bind { d with result := r }

/-- The callback a request record holds. -/
def work_data.cb : work_data → Value
  | .execute d => d.cb
  | .executeDirect d => d.cb
  | .prepare d => d.cb
  | .bind d => d.cb

/-- The operation a request record belongs to. -/
def work_data.op : work_data → Op
  | .execute _ => .Execute
  | .executeDirect _ => .ExecuteDirect
  | .prepare _ => .Prepare
  | .bind _ => .Bind

/-- One statement and the requests in flight for it. -/
structure Loop where
  stmt : ODBCStatement
  queue : List uv_work_t
  log : List Event
  deriving DecidableEq, Repr

/-- What can happen next: JavaScript calls a method, a pool thread runs the
work function of the queued request `i`, or the loop runs the completion
handler of request `i` once its work function has returned. -/
inductive Action where
  | call (op : Op) (args : List Value)
  | work (i : Nat)
  | after (i : Nat)
  deriving DecidableEq, Repr

/-- One step of the dispatcher. An action that is not enabled changes nothing. -/
def Loop.step (h : Host) (L : Loop) : Action → Loop
  | .call op args =>
    let s := submit h op args L.stmt
    { stmt := s.self, queue := L.queue ++ s.queued, log := L.log ++ s.log }
  | .work i =>
    match L.queue.get? i with
    | none => L
    | some req =>
      if req.worked then L
      else
        let r := work h L.stmt req.data
        { L with queue := L.queue.set i { data := r.1, worked := true }, log := L.log ++ r.2 }
  | .after i =>
    match L.queue.get? i with
    | none => L
    | some req =>
      if req.worked then
        let c := after h L.stmt req.data
        { stmt := c.self, queue := L.queue.eraseIdx i, log := L.log ++ c.log }
      else L

/-- A run of the dispatcher. -/
def Loop.run (h : Host) (L : Loop) (acts : List Action) : Loop :=
  acts.foldl (Loop.step h) L

/-- The whole life of one request: the method call, then (when it queued a
request) the work function and the completion handler. The events of the
three stages are kept apart. -/
structure Lifecycle where
  submitted : Submitted
  worked : List Event
  completed : Option Completed

def lifecycle (h : Host) (op : Op) (args : List Value) (stmt : ODBCStatement) : Lifecycle :=
  let s := submit h op args stmt
  match s.queued with
  | [] => { submitted := s, worked := [], completed := none }
  | req :: _ =>
    let w := work h s.self req.data
    { submitted := s, worked := w.2, completed := some (after h s.self w.1) }

/-- The driver calls of a log, in order. -/
def bindCalls (log : List Event) : List BindCall :=
  log.filterMap (fun e => match e with
    | .SQLBindParameter c => some c
    | _ => none)

/-- How many times the log releases the buffer of descriptor `i`. -/
def bufferReleases (i : Nat) (log : List Event) : Nat :=
  log.countP (fun e => match e with
    | .free (.paramBuffer j _) => j == i
    | .delete (.paramBuffer j _) => j == i
    | _ => false)

/-- How many times the log releases the descriptor list. -/
def listReleases (log : List Event) : Nat :=
  log.count (Event.free Block.params)

/-- A descriptor of one of the five supported kinds: a character, 64-bit
integer, double or boolean descriptor, or a null descriptor, which has no
buffer (whatever tag the marshaler gives it). -/
def Parameter.Supported (p : Parameter) : Prop :=
  p.c_type = SQL_C_CHAR ∨ p.c_type = SQL_C_SBIGINT ∨ p.c_type = SQL_C_DOUBLE
    ∨ p.c_type = SQL_C_BIT ∨ p.buffer = NULL

instance (p : Parameter) : Decidable p.Supported := by
  unfold Parameter.Supported; infer_instance

/-! ## Sample inputs -/

/-- A host for concrete runs: the driver accepts everything except the bind
of parameter 4, the translator invokes the callback once with an error value,
callbacks do not raise, and the argument macros test the argument kind. -/
def sampleHost : Host :=
  { SQLExecute := fun _ => SQL_SUCCESS
    SQLExecDirect := fun _ _ _ => SQL_SUCCESS
    SQLPrepare := fun _ _ _ => SQL_SUCCESS
    SQLBindParameter := fun c => if c.ParameterNumber = 4 then SQL_ERROR else SQL_SUCCESS
    GetParametersFromArray := fun _ => []
    CallbackSQLError := fun _ _ _ cb => [Event.Call cb [Value.TypeError "[driver] error"]]
    raises := fun _ _ => false
    REQ_FUN_ARG := fun i args =>
      if (ODBCStatement.argAt args i).IsFunction then .ok (ODBCStatement.argAt args i)
      else .error (Value.TypeError "Argument must be a function")
    REQ_STR_ARG := fun i args =>
      match ODBCStatement.argAt args i with
      | .Str s => .ok s
      | _ => .error (Value.TypeError "Argument must be a string")
    ret0 := 0
    SQLULEN_bits := 64 }

/-- A statement with live handles and an allocated scratch buffer. -/
def sampleStmt : ODBCStatement :=
  { m_hENV := 11, m_hDBC := 22, m_hSTMT := 33, buffer := 44, bufferLength := 1023,
    colCount := 0, refs_ := 0 }

/-- The descriptors of `["abc", 42, 3.14, true, null]`. -/
def sampleParams : List Parameter :=
  [ { c_type := SQL_C_CHAR, type := 12, size := 4, buffer := 101, buffer_length := 4,
      length := -3, decimals := 0 },
    { c_type := SQL_C_SBIGINT, type := -5, size := 0, buffer := 102, buffer_length := 0,
      length := 0, decimals := 0 },
    { c_type := SQL_C_DOUBLE, type := 3, size := 8, buffer := 103, buffer_length := 8,
      length := 8, decimals := 7 },
    { c_type := SQL_C_BIT, type := -7, size := 0, buffer := 104, buffer_length := 0,
      length := 0, decimals := 0 },
    { c_type := SQL_C_DEFAULT, type := 12, size := 0, buffer := NULL, buffer_length := 0,
      length := -1, decimals := 0 } ]

/-- The callback invocations of a log that are made directly by this file's
code: the callback and the arguments it gets. -/
def invocations (log : List Event) : List (Value × List Value) :=
  log.filterMap (fun e => match e with
    | .Call cb args => some (cb, args)
    | _ => none)

/-- The calls of a log into the error translator: the three handles and the
callback it is given. -/
def translations (log : List Event) : List (Ptr × Ptr × Ptr × Value) :=
  log.filterMap (fun e => match e with
    | .CallbackSQLError e d s cb => some (e, d, s, cb)
    | _ => none)

/-- The result-set objects a log constructs: the constructor arguments. -/
def constructions (log : List Event) : List (List Value) :=
  log.filterMap (fun e => match e with
    | .ConstructResult args => some args
    | _ => none)

/-- How many times the log invokes the callback `cb`. -/
def callsTo (cb : Value) (log : List Event) : Nat :=
  log.countP (fun e => match e with
    | .Call c _ => c == cb
    | _ => false)

/-- The sample host with callbacks that always raise. -/
def raisingHost : Host :=
  { sampleHost with raises := fun _ _ => true }

/-- The `SQLBindParameter` argument lists for all descriptors of a list, in
list order, the first one having index `i`. -/
def callsFrom (h : Host) (hSTMT : Ptr) : Nat → List Parameter → List BindCall
  | _, [] => []
  | i, prm :: rest => ODBCStatement.bindCall h hSTMT i prm :: callsFrom h hSTMT (i + 1) rest

/-- The sample host with a driver that answers `SQL_INVALID_HANDLE` to the
bind of parameter 2 and accepts the others. -/
def invalidHandleHost : Host :=
  { sampleHost with
    SQLBindParameter := fun c => if c.ParameterNumber = 2 then SQL_INVALID_HANDLE else SQL_SUCCESS }

/-- The descriptor buffers a log releases: descriptor index and address. -/
def releasedBuffers (log : List Event) : List (Nat × Ptr) :=
  log.filterMap (fun e => match e with
    | .free (.paramBuffer j q) => some (j, q)
    | .delete (.paramBuffer j q) => some (j, q)
    | _ => none)

/-- The request record `Bind` builds for the sample descriptors. -/
def sampleBind : bind_work_data :=
  { cb := Value.Function 7, params := sampleParams, result := 0 }

/-- The exceptions a log throws to the JavaScript caller. -/
def thrown (log : List Event) : List Value :=
  log.filterMap (fun e => match e with
    | .ThrowException v => some v
    | _ => none)

/-- Whether an event is a direct callback invocation. -/
def Event.isCall : Event → Bool
  | .Call _ _ => true
  | _ => false

/-! ## Free -/

theorem Free_handle_null (s : ODBCStatement) : s.Free.1.m_hSTMT = NULL := by
  unfold ODBCStatement.Free
  split
  · rfl
  · rename_i hn
    simpa using hn

theorem Free_of_null (s : ODBCStatement) (hs : s.m_hSTMT = NULL) : s.Free = (s, []) := by
  unfold ODBCStatement.Free
  simp [hs]

theorem FreeN_of_null (n : Nat) (s : ODBCStatement) (hs : s.m_hSTMT = NULL) :
    ODBCStatement.FreeN n s = (s, []) := by
  induction n with
  | zero => rfl
  | succ k ih => simp [ODBCStatement.FreeN, Free_of_null s hs, ih]

theorem FreeN_succ (n : Nat) (s : ODBCStatement) : ODBCStatement.FreeN (n + 1) s = s.Free := by
  simp [ODBCStatement.FreeN, FreeN_of_null n s.Free.1 (Free_handle_null s)]

theorem scratchReleases_Free (s : ODBCStatement) :
    scratchReleases s.Free.2 = if s.m_hSTMT ≠ NULL ∧ 0 < s.bufferLength then 1 else 0 := by
  unfold ODBCStatement.Free
  by_cases hs : s.m_hSTMT = NULL
  · simp [hs, scratchReleases]
  · by_cases hb : 0 < s.bufferLength
    · simp [hs, hb, scratchReleases, List.countP_cons]
    · simp [hs, hb, scratchReleases, List.countP_cons]

/-- C5: `Free` is idempotent. Two calls in a row, and any positive number of
calls in a row, leave the state and the events of one call; on a statement
whose native handle is already null a call has no event at all (no driver
free, no release of the scratch buffer) and changes no field; over any number
of calls the scratch buffer is released at most once, namely once exactly when
a call is made on a live handle with a capacity above zero, and never with
capacity zero. -/
theorem C5_Free_idempotent (s : ODBCStatement) (n : Nat) :
    ODBCStatement.FreeN 2 s = s.Free
    ∧ ODBCStatement.FreeN (n + 1) s = s.Free
    ∧ s.Free.1.Free = (s.Free.1, [])
    ∧ ({ s with m_hSTMT := NULL } : ODBCStatement).Free = ({ s with m_hSTMT := NULL }, [])
    ∧ driverFrees (ODBCStatement.FreeN n ({ s with m_hSTMT := NULL })).2 = 0
    ∧ scratchReleases (ODBCStatement.FreeN n s).2 ≤ 1
    ∧ scratchReleases (ODBCStatement.FreeN n s).2
        = (if 0 < n ∧ s.m_hSTMT ≠ NULL ∧ 0 < s.bufferLength then 1 else 0)
    ∧ scratchReleases (ODBCStatement.FreeN n ({ s with bufferLength := 0 })).2 = 0 := by
  have key : ∀ t : ODBCStatement, scratchReleases (ODBCStatement.FreeN n t).2
      = (if 0 < n ∧ t.m_hSTMT ≠ NULL ∧ 0 < t.bufferLength then 1 else 0) := by
    intro t
    cases n with
    | zero => simp [ODBCStatement.FreeN, scratchReleases]
    | succ k => rw [FreeN_succ, scratchReleases_Free]; simp
  refine ⟨FreeN_succ 1 s, FreeN_succ n s, Free_of_null _ (Free_handle_null s),
    Free_of_null _ rfl, ?_, ?_, key s, ?_⟩
  · rw [FreeN_of_null n _ rfl]; rfl
  · rw [key s]; split <;> omega
  · rw [key]; simp

/-! ## Completion handlers -/

theorem after_self (h : Host) (stmt : ODBCStatement) (d : work_data) :
    (after h stmt d).self = stmt.Unref := by
  cases d <;> rfl

theorem after_iso (h : Host) (stmt : ODBCStatement) (d : work_data) :
    (after h stmt d).iso.try_catch = some false := by
  cases d <;> rfl

/-- The success branch of the four completion handlers. -/
theorem after_of_ne_error (h : Host) (stmt : ODBCStatement) (d : work_data)
    (hd : d.result ≠ SQL_ERROR) :
    invocations (after h stmt d).log
        = [(d.cb, [Value.Null,
            match d.op with
            | .Prepare => Value.True
            | .Bind => Value.True
            | .Execute => Value.ODBCResult stmt.m_hENV stmt.m_hDBC stmt.m_hSTMT
            | .ExecuteDirect => Value.ODBCResult stmt.m_hENV stmt.m_hDBC stmt.m_hSTMT])]
    ∧ constructions (after h stmt d).log
        = (match d.op with
            | .Prepare => []
            | .Bind => []
            | .Execute => [[Value.External stmt.m_hENV, Value.External stmt.m_hDBC,
                Value.External stmt.m_hSTMT]]
            | .ExecuteDirect => [[Value.External stmt.m_hENV, Value.External stmt.m_hDBC,
                Value.External stmt.m_hSTMT]])
    ∧ translations (after h stmt d).log = [] := by
  cases d with
  | execute e =>
    have he : e.result ≠ SQL_ERROR := hd
    by_cases hr : h.raises e.cb [Value.Null, Value.ODBCResult stmt.m_hENV stmt.m_hDBC stmt.m_hSTMT]
      <;> simp [after, ODBCStatement.UV_AfterExecute, he, Call, NewInstance, invocations,
        constructions, translations, work_data.cb, work_data.op, Isolate.HasCaught,
        Isolate.TryCatch, Isolate.raise, Isolate.entry, hr]
  | executeDirect e =>
    have he : e.result ≠ SQL_ERROR := hd
    by_cases hr : h.raises e.cb [Value.Null, Value.ODBCResult stmt.m_hENV stmt.m_hDBC stmt.m_hSTMT]
      <;> simp [after, ODBCStatement.UV_AfterExecuteDirect, he, Call, NewInstance, invocations,
        constructions, translations, work_data.cb, work_data.op, Isolate.HasCaught,
        Isolate.TryCatch, Isolate.raise, Isolate.entry, hr]
  | prepare e =>
    have he : e.result ≠ SQL_ERROR := hd
    by_cases hr : h.raises e.cb [Value.Null, Value.True]
      <;> simp [after, ODBCStatement.UV_AfterPrepare, he, Call, invocations,
        constructions, translations, work_data.cb, work_data.op, Isolate.HasCaught,
        Isolate.TryCatch, Isolate.raise, Isolate.entry, hr]
  | bind e =>
    have he : e.result ≠ SQL_ERROR := hd
    by_cases hr : h.raises e.cb [Value.Null, Value.True]
      <;> simp [after, ODBCStatement.UV_AfterBind, he, Call, invocations,
        constructions, translations, work_data.cb, work_data.op, Isolate.HasCaught,
        Isolate.TryCatch, Isolate.raise, Isolate.entry, hr]

/-- C2: a completion handler whose request holds a status other than
`SQL_ERROR` invokes the callback once, with exactly the two arguments
`(null, payload)`: `true` for Prepare and Bind, and for Execute and
ExecuteDirect the result-set object built, by the one construction the handler
makes, from the statement's environment, connection and statement handles in
this order. The error translator is not called. -/
theorem C2_success_payload (h : Host) (stmt : ODBCStatement) (d : work_data)
    (hd : d.result ≠ SQL_ERROR) :
    invocations (after h stmt d).log
        = [(d.cb, [Value.Null,
            match d.op with
            | .Prepare => Value.True
            | .Bind => Value.True
            | .Execute => Value.ODBCResult stmt.m_hENV stmt.m_hDBC stmt.m_hSTMT
            | .ExecuteDirect => Value.ODBCResult stmt.m_hENV stmt.m_hDBC stmt.m_hSTMT])]
    ∧ constructions (after h stmt d).log
        = (match d.op with
            | .Prepare => []
            | .Bind => []
            | .Execute => [[Value.External stmt.m_hENV, Value.External stmt.m_hDBC,
                Value.External stmt.m_hSTMT]]
            | .ExecuteDirect => [[Value.External stmt.m_hENV, Value.External stmt.m_hDBC,
                Value.External stmt.m_hSTMT]])
    ∧ translations (after h stmt d).log = [] :=
  after_of_ne_error h stmt d hd

/-- C2 at a concrete request: ExecuteDirect completed with
`SQL_SUCCESS_WITH_INFO`. -/
theorem C2_success_payload_witness :
    (work_data.executeDirect
        { cb := Value.Function 7, sql := "SELECT 1", result := SQL_SUCCESS_WITH_INFO }).result
      ≠ SQL_ERROR
    ∧ invocations (after sampleHost sampleStmt (work_data.executeDirect
        { cb := Value.Function 7, sql := "SELECT 1", result := SQL_SUCCESS_WITH_INFO })).log
      = [(Value.Function 7, [Value.Null, Value.ODBCResult 11 22 33])] :=
  ⟨by decide, (C2_success_payload sampleHost sampleStmt (work_data.executeDirect
    { cb := Value.Function 7, sql := "SELECT 1", result := SQL_SUCCESS_WITH_INFO })
    (by decide)).1⟩

theorem withResult_result (d : work_data) (r : SQLRETURN) : (d.withResult r).result = r := by
  cases d <;> rfl

theorem withResult_cb (d : work_data) (r : SQLRETURN) : (d.withResult r).cb = d.cb := by
  cases d <;> rfl

theorem withResult_op (d : work_data) (r : SQLRETURN) : (d.withResult r).op = d.op := by
  cases d <;> rfl

/-- The error branch of the four completion handlers: the translator is called
first, with the three handles of the statement and the callback. -/
theorem after_of_error (h : Host) (stmt : ODBCStatement) (d : work_data)
    (hd : d.result = SQL_ERROR) :
    ∃ rest, (after h stmt d).log
        = Event.CallbackSQLError stmt.m_hENV stmt.m_hDBC stmt.m_hSTMT d.cb
          :: (h.CallbackSQLError stmt.m_hENV stmt.m_hDBC stmt.m_hSTMT d.cb ++ Event.Unref :: rest)
      ∧ callsTo d.cb rest = 0 := by
  cases d with
  | execute e =>
    have he : e.result = SQL_ERROR := hd
    exact ⟨_, by simp [after, ODBCStatement.UV_AfterExecute, he, work_data.cb,
      Isolate.HasCaught, Isolate.TryCatch, Isolate.entry]; rfl, by simp [callsTo]⟩
  | executeDirect e =>
    have he : e.result = SQL_ERROR := hd
    exact ⟨_, by simp [after, ODBCStatement.UV_AfterExecuteDirect, he, work_data.cb,
      Isolate.HasCaught, Isolate.TryCatch, Isolate.entry]; rfl, by simp [callsTo]⟩
  | prepare e =>
    have he : e.result = SQL_ERROR := hd
    exact ⟨_, by simp [after, ODBCStatement.UV_AfterPrepare, he, work_data.cb,
      Isolate.HasCaught, Isolate.TryCatch, Isolate.entry]; rfl, by simp [callsTo]⟩
  | bind e =>
    have he : e.result = SQL_ERROR := hd
    exact ⟨_, by simp [after, ODBCStatement.UV_AfterBind, he, work_data.cb,
      Isolate.HasCaught, Isolate.TryCatch, Isolate.entry]; rfl, by simp [callsTo]⟩

theorem translations_after (h : Host) (stmt : ODBCStatement) (d : work_data) :
    translations (after h stmt d).log ≠ [] ↔ d.result = SQL_ERROR := by
  constructor
  · intro hne
    by_contra hd
    exact hne (after_of_ne_error h stmt d hd).2.2
  · intro hd
    obtain ⟨rest, hlog, _⟩ := after_of_error h stmt d hd
    rw [hlog]
    simp [translations]

/-- C1: the branch a completion handler takes is decided by the test
`data->result == SQL_ERROR` alone: the translator is called exactly when the
recorded status is `SQL_ERROR`. Among the six status codes this differs from
"the driver call reported failure" at `SQL_INVALID_HANDLE` and only there: with
that status recorded, each of the four handlers leaves the translator alone and
invokes the callback with `(null, payload)`, as on success. -/
theorem C1_invalid_handle_takes_success_branch (h : Host) (stmt : ODBCStatement)
    (d : work_data) (r : SQLRETURN) :
    (translations (after h stmt (d.withResult r)).log ≠ [] ↔ r = SQL_ERROR)
    ∧ reportsFailure SQL_INVALID_HANDLE = true
    ∧ translations (after h stmt (d.withResult SQL_INVALID_HANDLE)).log = []
    ∧ invocations (after h stmt (d.withResult SQL_INVALID_HANDLE)).log
        = [(d.cb, [Value.Null,
            match d.op with
            | .Prepare => Value.True
            | .Bind => Value.True
            | .Execute => Value.ODBCResult stmt.m_hENV stmt.m_hDBC stmt.m_hSTMT
            | .ExecuteDirect => Value.ODBCResult stmt.m_hENV stmt.m_hDBC stmt.m_hSTMT])]
    ∧ statusCodes.filter (fun c => reportsFailure c != decide (c = SQL_ERROR))
        = [SQL_INVALID_HANDLE] := by
  have hne : (d.withResult SQL_INVALID_HANDLE).result ≠ SQL_ERROR := by
    rw [withResult_result]; decide
  have hs := after_of_ne_error h stmt (d.withResult SQL_INVALID_HANDLE) hne
  rw [withResult_cb, withResult_op] at hs
  refine ⟨?_, by decide, hs.2.2, hs.1, by decide⟩
  rw [translations_after, withResult_result]

/-- C8: a completion handler constructs its `TryCatch` after the callback has
been invoked, so nothing the callback raises reaches it: the handler produces
the same events whether or not the callback raises, its `HasCaught` test is
false on every path, and the statement is unreferenced once on every path. At
the Prepare request completed with `SQL_SUCCESS` whose callback raises, the
events are the callback invocation, the `Unref` and the releases, with no
`FatalException`; the error raised is left unhandled. -/
theorem C8_callback_error_not_reported (h : Host) (stmt : ODBCStatement) (d : work_data) :
    (after h stmt d).log = (after { h with raises := fun _ _ => false } stmt d).log
    ∧ (after h stmt d).iso.HasCaught = false
    ∧ (after h stmt d).self = stmt.Unref
    ∧ (after raisingHost sampleStmt (work_data.prepare
        { cb := Value.Function 7, sql := "SELECT 1", result := SQL_SUCCESS })).log
      = [Event.Call (Value.Function 7) [Value.Null, Value.True], Event.Unref,
          Event.Dispose (Value.Function 7), Event.free (Block.sql "SELECT 1"),
          Event.free Block.data, Event.free Block.req]
    ∧ (after raisingHost sampleStmt (work_data.prepare
        { cb := Value.Function 7, sql := "SELECT 1", result := SQL_SUCCESS })).iso
      = { try_catch := some false, unhandled := 1 } := by
  refine ⟨?_, ?_, after_self h stmt d, by decide, by decide⟩
  · cases d <;>
      simp only [after, ODBCStatement.UV_AfterExecute, ODBCStatement.UV_AfterExecuteDirect,
        ODBCStatement.UV_AfterPrepare, ODBCStatement.UV_AfterBind, Call, Isolate.HasCaught,
        Isolate.TryCatch] <;>
      split <;> simp
  · simp [Isolate.HasCaught, after_iso]

/-! ## The Bind work function -/

theorem bindCalls_append (a b : List Event) : bindCalls (a ++ b) = bindCalls a ++ bindCalls b := by
  simp [bindCalls, List.filterMap_append]

theorem bindCalls_map (cs : List BindCall) : bindCalls (cs.map Event.SQLBindParameter) = cs := by
  induction cs with
  | nil => rfl
  | cons c rest ih =>
    simp only [bindCalls, List.map_cons, List.filterMap_cons] at ih ⊢
    rw [ih]

theorem bindCalls_freeParam (i : Nat) (p : Parameter) :
    bindCalls (ODBCStatement.freeParam i p) = [] := by
  unfold ODBCStatement.freeParam
  repeat' split
  all_goals rfl

theorem bindCalls_freeLoop (ps : List Parameter) (i : Nat) :
    bindCalls (ODBCStatement.freeLoop i ps) = [] := by
  induction ps generalizing i with
  | nil => rfl
  | cons p rest ih =>
    simp [ODBCStatement.freeLoop, bindCalls_append, bindCalls_freeParam, ih]

theorem bindCalls_UV_Bind (h : Host) (stmt : ODBCStatement) (d : bind_work_data) :
    bindCalls (ODBCStatement.UV_Bind h stmt d).2
      = (ODBCStatement.bindLoop h stmt.m_hSTMT 0 d.params h.ret0).2 := by
  simp only [ODBCStatement.UV_Bind, bindCalls_append, bindCalls_map, bindCalls_freeLoop]
  simp [bindCalls]

theorem bindLoop_stops (h : Host) (hs : Ptr) (ps : List Parameter) (i : Nat) (ret : SQLRETURN)
    (k : Nat) (hk1 : 1 ≤ k) (hkn : k ≤ ps.length)
    (hacc : ∀ j p, j + 1 < k → ps.get? j = some p →
      h.SQLBindParameter (ODBCStatement.bindCall h hs (i + j) p) ≠ SQL_ERROR)
    (hfail : ∀ p, ps.get? (k - 1) = some p →
      h.SQLBindParameter (ODBCStatement.bindCall h hs (i + (k - 1)) p) = SQL_ERROR) :
    (ODBCStatement.bindLoop h hs i ps ret).2 = callsFrom h hs i (ps.take k) := by
  induction ps generalizing i ret k with
  | nil => simp at hkn; omega
  | cons p rest ih =>
    obtain ⟨k', rfl⟩ : ∃ k', k = k' + 1 := ⟨k - 1, by omega⟩
    cases k' with
    | zero =>
      have hf := hfail p (by simp)
      simp only [Nat.zero_add, Nat.sub_self, Nat.add_zero] at hf
      simp [ODBCStatement.bindLoop, hf, callsFrom]
    | succ m =>
      have ha := hacc 0 p (by omega) (by simp)
      simp only [Nat.add_zero] at ha
      simp only [ODBCStatement.bindLoop, ha, if_false, List.take_succ_cons, callsFrom]
      congr 1
      apply ih (i + 1) _ (m + 1) (by omega) (by simpa using hkn)
      · intro j q hj hq
        have := hacc (j + 1) q (by omega) (by simpa using hq)
        rwa [show i + 1 + j = i + (j + 1) by omega]
      · intro q hq
        have := hfail q (by simpa using hq)
        rwa [show i + 1 + (m + 1 - 1) = i + (m + 1 + 1 - 1) by omega]

theorem callsFrom_numbers (h : Host) (hs : Ptr) (ps : List Parameter) (i : Nat) :
    (callsFrom h hs i ps).map (fun c => c.ParameterNumber)
      = (List.range' (i + 1) ps.length).map (fun n => n % 2 ^ 16) := by
  induction ps generalizing i with
  | nil => rfl
  | cons p rest ih => simp [callsFrom, ih, ODBCStatement.bindCall, List.range'_succ]

theorem callsFrom_slots (h : Host) (hs : Ptr) (ps : List Parameter) (i : Nat) :
    (callsFrom h hs i ps).map (fun c => c.StrLen_or_IndPtr) = List.range' i ps.length := by
  induction ps generalizing i with
  | nil => rfl
  | cons p rest ih => simp [callsFrom, ih, ODBCStatement.bindCall, List.range'_succ]

theorem callsFrom_buffers (h : Host) (hs : Ptr) (ps : List Parameter) (i : Nat) :
    (callsFrom h hs i ps).map (fun c => c.ParameterValuePtr) = ps.map (fun q => q.buffer) := by
  induction ps generalizing i with
  | nil => rfl
  | cons p rest ih => simp [callsFrom, ih, ODBCStatement.bindCall]

theorem ne_error_of_accepted (r : SQLRETURN) (hr : reportsFailure r = false) : r ≠ SQL_ERROR := by
  intro he
  subst he
  exact absurd hr (by decide)

theorem range_mod_small (k : Nat) (hk : k < 2 ^ 16) :
    (List.range' 1 k).map (fun n => n % 2 ^ 16) = List.range' 1 k := by
  apply List.ext_getElem
  · simp
  · intro n h1 h2
    simp only [List.length_map, List.length_range'] at h1
    simp only [List.getElem_map, List.getElem_range', Nat.one_mul]
    apply Nat.mod_eq_of_lt
    omega

/-- C7 as stated fails. With the five sample descriptors and a driver that
accepts the binds of descriptors 1-3 and answers `SQL_ERROR` to the bind of
descriptor 4, the buffers passed to the driver are those of descriptors 1-4,
not those of descriptors 1-3 only. With a driver that reports the failure of
descriptor 2 as `SQL_INVALID_HANDLE`, descriptors 3-5 are passed as well. The
descriptor at position 65536 is passed with parameter number 0. -/
theorem C7_counterexample :
    (∀ c ∈ callsFrom sampleHost sampleStmt.m_hSTMT 0 (sampleParams.take 3),
        reportsFailure (sampleHost.SQLBindParameter c) = false)
    ∧ (∀ c ∈ callsFrom sampleHost sampleStmt.m_hSTMT 3 ((sampleParams.drop 3).take 1),
        reportsFailure (sampleHost.SQLBindParameter c) = true)
    ∧ (bindCalls (ODBCStatement.UV_Bind sampleHost sampleStmt sampleBind).2).map
        (fun c => c.ParameterNumber) = [1, 2, 3, 4]
    ∧ (bindCalls (ODBCStatement.UV_Bind sampleHost sampleStmt sampleBind).2).map
        (fun c => c.ParameterValuePtr) = [101, 102, 103, 104]
    ∧ ¬ ((bindCalls (ODBCStatement.UV_Bind sampleHost sampleStmt sampleBind).2).map
        (fun c => c.ParameterValuePtr) = (sampleParams.take 3).map (fun q => q.buffer))
    ∧ (∀ c ∈ callsFrom invalidHandleHost sampleStmt.m_hSTMT 1 ((sampleParams.drop 1).take 1),
        reportsFailure (invalidHandleHost.SQLBindParameter c) = true)
    ∧ (bindCalls (ODBCStatement.UV_Bind invalidHandleHost sampleStmt sampleBind).2).map
        (fun c => c.ParameterNumber) = [1, 2, 3, 4, 5]
    ∧ (ODBCStatement.bindCall sampleHost sampleStmt.m_hSTMT 65535
        { c_type := SQL_C_BIT, type := -7, size := 0, buffer := 104, buffer_length := 0,
          length := 0, decimals := 0 }).ParameterNumber = 0 := by
  decide

/-- C7, amended: when the driver accepts the binds of descriptors `1..k-1`
(none of them reports failure) and reports the failure of descriptor `k` as
`SQL_ERROR` (`1 ≤ k ≤ n`), the calls `UV_Bind` makes are exactly those for
descriptors `1..k`, the failing one included, each once and in list order:
the buffers passed are the buffers of descriptors `1..k`, no descriptor after
position `k` is passed, and the parameter number of each call is the 1-based
position of its descriptor as a 16-bit number, which is the position itself
when `k ≤ 65535`. -/
theorem C7_bound_through_failure (h : Host) (stmt : ODBCStatement) (d : bind_work_data)
    (k : Nat) (hk1 : 1 ≤ k) (hkn : k ≤ d.params.length)
    (hacc : ∀ j p, j + 1 < k → d.params.get? j = some p →
      reportsFailure (h.SQLBindParameter (ODBCStatement.bindCall h stmt.m_hSTMT j p)) = false)
    (hfail : ∀ p, d.params.get? (k - 1) = some p →
      h.SQLBindParameter (ODBCStatement.bindCall h stmt.m_hSTMT (k - 1) p) = SQL_ERROR) :
    bindCalls (ODBCStatement.UV_Bind h stmt d).2 = callsFrom h stmt.m_hSTMT 0 (d.params.take k)
    ∧ (bindCalls (ODBCStatement.UV_Bind h stmt d).2).map (fun c => c.ParameterValuePtr)
        = (d.params.take k).map (fun q => q.buffer)
    ∧ (bindCalls (ODBCStatement.UV_Bind h stmt d).2).map (fun c => c.StrLen_or_IndPtr)
        = List.range' 0 k
    ∧ (bindCalls (ODBCStatement.UV_Bind h stmt d).2).map (fun c => c.ParameterNumber)
        = (List.range' 1 k).map (fun n => n % 2 ^ 16)
    ∧ (k < 2 ^ 16 →
        (bindCalls (ODBCStatement.UV_Bind h stmt d).2).map (fun c => c.ParameterNumber)
          = List.range' 1 k) := by
  have hc : bindCalls (ODBCStatement.UV_Bind h stmt d).2
      = callsFrom h stmt.m_hSTMT 0 (d.params.take k) := by
    rw [bindCalls_UV_Bind]
    apply bindLoop_stops h stmt.m_hSTMT d.params 0 h.ret0 k hk1 hkn
    · intro j p hj hp
      rw [Nat.zero_add]
      exact ne_error_of_accepted _ (hacc j p hj hp)
    · intro p hp
      rw [Nat.zero_add]
      exact hfail p hp
  have hn : (bindCalls (ODBCStatement.UV_Bind h stmt d).2).map (fun c => c.ParameterNumber)
      = (List.range' 1 k).map (fun n => n % 2 ^ 16) := by
    rw [hc, callsFrom_numbers, List.length_take, Nat.min_eq_left hkn]
  refine ⟨hc, ?_, ?_, hn, ?_⟩
  · rw [hc, callsFrom_buffers]
  · rw [hc, callsFrom_slots, List.length_take, Nat.min_eq_left hkn]
  · intro hk
    rw [hn, range_mod_small k hk]

/-- C7, amended, at the five sample descriptors with the bind of descriptor 4
failing: the calls are those for descriptors 1-4. -/
theorem C7_bound_through_failure_witness :
    (bindCalls (ODBCStatement.UV_Bind sampleHost sampleStmt sampleBind).2).map
        (fun c => c.ParameterNumber) = List.range' 1 4 :=
  (C7_bound_through_failure sampleHost sampleStmt sampleBind 4 (by decide) (by decide)
    (by
      intro j p hj hp
      have hj3 : j < 3 := by omega
      interval_cases j <;> simp [sampleBind, sampleParams] at hp <;> subst hp <;> decide)
    (by
      intro p hp
      simp [sampleBind, sampleParams] at hp
      subst hp
      decide)).2.2.2.2 (by decide)

theorem bufferReleases_append (j : Nat) (a b : List Event) :
    bufferReleases j (a ++ b) = bufferReleases j a + bufferReleases j b := by
  simp [bufferReleases, List.countP_append]

theorem bufferReleases_map (j : Nat) (cs : List BindCall) :
    bufferReleases j (cs.map Event.SQLBindParameter) = 0 := by
  induction cs with
  | nil => rfl
  | cons c rest ih =>
    simp only [bufferReleases, List.map_cons, List.countP_cons] at ih ⊢
    rw [ih]
    rfl

theorem bufferReleases_freeParam (j i : Nat) (p : Parameter) (hp : p.Supported) :
    bufferReleases j (ODBCStatement.freeParam i p)
      = if i = j ∧ p.buffer ≠ NULL then 1 else 0 := by
  unfold ODBCStatement.freeParam
  by_cases hb : p.buffer = NULL
  · simp [hb, bufferReleases]
  · rcases hp with hc | hc | hc | hc | hn
    · by_cases hij : i = j <;> simp [hb, hc, hij, bufferReleases, List.countP_cons]
    · by_cases hij : i = j <;>
        simp [hb, hc, hij, bufferReleases, List.countP_cons, SQL_C_SBIGINT, SQL_C_CHAR]
    · by_cases hij : i = j <;>
        simp [hb, hc, hij, bufferReleases, List.countP_cons, SQL_C_SBIGINT, SQL_C_CHAR,
          SQL_C_DOUBLE]
    · by_cases hij : i = j <;>
        simp [hb, hc, hij, bufferReleases, List.countP_cons, SQL_C_SBIGINT, SQL_C_CHAR,
          SQL_C_DOUBLE, SQL_C_BIT]
    · exact absurd hn hb

theorem bufferReleases_freeLoop (ps : List Parameter) (i j : Nat)
    (hp : ∀ p ∈ ps, p.Supported) :
    bufferReleases j (ODBCStatement.freeLoop i ps)
      = if i ≤ j then
          (match ps.get? (j - i) with
            | some p => if p.buffer = NULL then 0 else 1
            | none => 0)
        else 0 := by
  induction ps generalizing i with
  | nil => simp [ODBCStatement.freeLoop, bufferReleases]
  | cons p rest ih =>
    have h1 := bufferReleases_freeParam j i p (hp p (List.mem_cons_self _ _))
    have h2 := ih (i + 1) (fun q hq => hp q (List.mem_cons_of_mem _ hq))
    rw [ODBCStatement.freeLoop, bufferReleases_append, h1, h2]
    rcases Nat.lt_trichotomy i j with hlt | heq | hgt
    · obtain ⟨m, rfl⟩ : ∃ m, j = i + 1 + m := ⟨j - (i + 1), by omega⟩
      have e1 : i + 1 + m - (i + 1) = m := by omega
      have e2 : i + 1 + m - i = m + 1 := by omega
      have c1 : ¬ (i = i + 1 + m ∧ p.buffer ≠ NULL) := fun hh => by omega
      have c2 : i + 1 ≤ i + 1 + m := by omega
      have c3 : i ≤ i + 1 + m := by omega
      rw [if_neg c1, if_pos c2, if_pos c3, e1, e2, Nat.zero_add]
      rfl
    · subst heq
      by_cases hb : p.buffer = NULL <;> simp [hb]
    · have e1 : ¬ (i + 1 ≤ j) := by omega
      have e2 : ¬ (i ≤ j) := by omega
      have e3 : ¬ (i = j) := by omega
      simp [e1, e2, e3]

theorem releasedBuffers_append (a b : List Event) :
    releasedBuffers (a ++ b) = releasedBuffers a ++ releasedBuffers b := by
  simp [releasedBuffers, List.filterMap_append]

theorem releasedBuffers_map (cs : List BindCall) :
    releasedBuffers (cs.map Event.SQLBindParameter) = [] := by
  induction cs with
  | nil => rfl
  | cons c rest ih =>
    simp only [releasedBuffers, List.map_cons, List.filterMap_cons] at ih ⊢
    exact ih

theorem releasedBuffers_freeLoop (ps : List Parameter) (i j : Nat) (q : Ptr)
    (hm : (j, q) ∈ releasedBuffers (ODBCStatement.freeLoop i ps)) :
    i ≤ j ∧ ∃ p, ps.get? (j - i) = some p ∧ p.buffer = q ∧ q ≠ NULL := by
  induction ps generalizing i with
  | nil => simp [ODBCStatement.freeLoop, releasedBuffers] at hm
  | cons p rest ih =>
    rw [ODBCStatement.freeLoop, releasedBuffers_append, List.mem_append] at hm
    rcases hm with hm | hm
    · have : (j, q) = (i, p.buffer) ∧ p.buffer ≠ NULL := by
        unfold ODBCStatement.freeParam at hm
        by_cases hb : p.buffer = NULL
        · simp [hb, releasedBuffers] at hm
        · simp only [hb, ne_eq, not_false_eq_true, if_true] at hm
          refine ⟨?_, hb⟩
          repeat' split at hm
          all_goals simp [releasedBuffers] at hm
          all_goals simp [hm]
      obtain ⟨he, hb⟩ := this
      cases he
      exact ⟨Nat.le_refl _, p, by simp, rfl, hb⟩
    · obtain ⟨hle, p2, hg, hb, hq⟩ := ih (i + 1) hm
      refine ⟨by omega, p2, ?_, hb, hq⟩
      obtain ⟨m, rfl⟩ : ∃ m, j = i + 1 + m := ⟨j - (i + 1), by omega⟩
      have e1 : i + 1 + m - (i + 1) = m := by omega
      have e2 : i + 1 + m - i = m + 1 := by omega
      rw [e1] at hg
      rw [e2]
      simpa using hg

theorem listReleases_UV_Bind (h : Host) (stmt : ODBCStatement) (d : bind_work_data) :
    listReleases (ODBCStatement.UV_Bind h stmt d).2 = 1 := by
  have h1 : ∀ cs : List BindCall,
      List.count (Event.free Block.params) (cs.map Event.SQLBindParameter) = 0 := by
    intro cs
    rw [List.count_eq_zero]
    simp
  have h2 : ∀ (ps : List Parameter) (i : Nat),
      List.count (Event.free Block.params) (ODBCStatement.freeLoop i ps) = 0 := by
    intro ps
    induction ps with
    | nil => intro i; rfl
    | cons p rest ih =>
      intro i
      rw [ODBCStatement.freeLoop, List.count_append, ih, Nat.add_zero, List.count_eq_zero]
      unfold ODBCStatement.freeParam
      repeat' split
      all_goals simp
  simp [listReleases, ODBCStatement.UV_Bind, List.count_append, h1, h2]

/-- C6: for a list of supported descriptors (character, 64-bit integer, double,
boolean, or null with no buffer) and any driver, whatever the outcome of the
bind calls, `UV_Bind` releases the buffer of each descriptor that has one
exactly once, releases no buffer of a descriptor without one, releases only
buffers of descriptors of the list at their own address, and releases the
descriptor list once. -/
theorem C6_bind_releases_buffers (h : Host) (stmt : ODBCStatement) (d : bind_work_data)
    (hp : ∀ p ∈ d.params, p.Supported) (j : Nat) (p : Parameter)
    (hj : d.params.get? j = some p) :
    bufferReleases j (ODBCStatement.UV_Bind h stmt d).2 = (if p.buffer = NULL then 0 else 1)
    ∧ (∀ i q, (i, q) ∈ releasedBuffers (ODBCStatement.UV_Bind h stmt d).2 →
        ∃ p2, d.params.get? i = some p2 ∧ p2.buffer = q ∧ q ≠ NULL)
    ∧ listReleases (ODBCStatement.UV_Bind h stmt d).2 = 1 := by
  refine ⟨?_, ?_, listReleases_UV_Bind h stmt d⟩
  · simp only [ODBCStatement.UV_Bind, bufferReleases_append, bufferReleases_map,
      bufferReleases_freeLoop d.params 0 j hp, Nat.zero_le, if_true, Nat.sub_zero, hj]
    simp [bufferReleases]
  · intro i q hm
    simp only [ODBCStatement.UV_Bind, releasedBuffers_append, releasedBuffers_map] at hm
    simp only [List.nil_append, List.mem_append] at hm
    rcases hm with hm | hm
    · have := (releasedBuffers_freeLoop d.params 0 i q hm).2
      simpa using this
    · simp [releasedBuffers] at hm

/-- C6 at the five sample descriptors with the bind of descriptor 4 failing:
the buffer of descriptor 4 is released once all the same. -/
theorem C6_bind_releases_buffers_witness :
    (∀ p ∈ sampleBind.params, p.Supported)
    ∧ bufferReleases 3 (ODBCStatement.UV_Bind sampleHost sampleStmt sampleBind).2 = 1 :=
  ⟨by decide,
    (C6_bind_releases_buffers sampleHost sampleStmt sampleBind (by decide) 3
      { c_type := SQL_C_BIT, type := -7, size := 0, buffer := 104, buffer_length := 0,
        length := 0, decimals := 0 } (by decide)).1⟩

/-! ## Submission -/

/-- C9: when the first argument of `Bind` is not an array, `Bind` throws the
`TypeError` to its caller and does nothing else: its only event is the throw
(no callback captured, no descriptor list built, no work queued, no `Ref`), it
queues no request and leaves the statement, reference count included,
unchanged. Conversely, whenever `Bind` queues work it queues exactly one
request with one `uv_queue_work`, its first argument was an array and it has
thrown nothing. -/
theorem C9_bind_marshal_error_synchronous (h : Host) (args args2 : List Value)
    (stmt : ODBCStatement) (hn : (ODBCStatement.argAt args 0).IsArray = false) :
    (ODBCStatement.Bind h args stmt).log
        = [Event.ThrowException (Value.TypeError "Argument 1 must be an Array")]
    ∧ (ODBCStatement.Bind h args stmt).queued = []
    ∧ (ODBCStatement.Bind h args stmt).self = stmt
    ∧ ((ODBCStatement.Bind h args2 stmt).queued ≠ [] →
        (ODBCStatement.Bind h args2 stmt).queued.length = 1
        ∧ (ODBCStatement.Bind h args2 stmt).log.count Event.uv_queue_work = 1
        ∧ (ODBCStatement.argAt args2 0).IsArray = true
        ∧ thrown (ODBCStatement.Bind h args2 stmt).log = []) := by
  refine ⟨by simp [ODBCStatement.Bind, hn], by simp [ODBCStatement.Bind, hn],
    by simp [ODBCStatement.Bind, hn], ?_⟩
  intro hq
  unfold ODBCStatement.Bind at hq ⊢
  by_cases ha : (ODBCStatement.argAt args2 0).IsArray = true
  · cases hf : h.REQ_FUN_ARG 1 args2 with
    | error e => simp [ha, hf] at hq
    | ok cb => simp [ha, hf, thrown, List.count_cons]
  · simp [ha] at hq

/-- C9 at `bind(42, cb)`: the throw is the only event. -/
theorem C9_bind_marshal_error_synchronous_witness :
    (ODBCStatement.argAt [Value.Num 42, Value.Function 7] 0).IsArray = false
    ∧ (ODBCStatement.Bind sampleHost [Value.Num 42, Value.Function 7] sampleStmt).log
        = [Event.ThrowException (Value.TypeError "Argument 1 must be an Array")]
    ∧ (ODBCStatement.Bind sampleHost [Value.Array 1, Value.Function 7] sampleStmt).queued.length
        = 1 :=
  ⟨by decide,
    (C9_bind_marshal_error_synchronous sampleHost [Value.Num 42, Value.Function 7]
      [Value.Array 1, Value.Function 7] sampleStmt (by decide)).1,
    ((C9_bind_marshal_error_synchronous sampleHost [Value.Num 42, Value.Function 7]
      [Value.Array 1, Value.Function 7] sampleStmt (by decide)).2.2.2 (by decide)).1⟩

theorem callsTo_eq_zero (cb : Value) (log : List Event) (hl : ∀ e ∈ log, e.isCall = false) :
    callsTo cb log = 0 := by
  unfold callsTo
  rw [List.countP_eq_zero]
  intro e he
  have := hl e he
  cases e <;> simp_all [Event.isCall]

theorem callsTo_append (cb : Value) (a b : List Event) :
    callsTo cb (a ++ b) = callsTo cb a + callsTo cb b := by
  simp [callsTo, List.countP_append]

theorem submit_cases (h : Host) (op : Op) (args : List Value) (stmt : ODBCStatement) :
    ((submit h op args stmt).queued = [] ∧ (submit h op args stmt).self = stmt)
    ∨ (∃ req, (submit h op args stmt).queued = [req] ∧ req.worked = false
        ∧ (submit h op args stmt).self = stmt.Ref) := by
  cases op
  · simp only [submit, ODBCStatement.Execute]
    cases h.REQ_FUN_ARG 0 args <;> simp
  · simp only [submit, ODBCStatement.ExecuteDirect]
    cases h.REQ_STR_ARG 0 args <;> cases h.REQ_FUN_ARG 1 args <;> simp
  · simp only [submit, ODBCStatement.Prepare]
    cases h.REQ_STR_ARG 0 args <;> cases h.REQ_FUN_ARG 1 args <;> simp
  · simp only [submit, ODBCStatement.Bind]
    by_cases ha : (ODBCStatement.argAt args 0).IsArray = true
    · cases h.REQ_FUN_ARG 1 args <;> simp [ha]
    · simp [ha]

theorem submit_no_call (h : Host) (op : Op) (args : List Value) (stmt : ODBCStatement) :
    ∀ e ∈ (submit h op args stmt).log, e.isCall = false := by
  cases op
  · simp only [submit, ODBCStatement.Execute]
    cases h.REQ_FUN_ARG 0 args <;> simp [Event.isCall]
  · simp only [submit, ODBCStatement.ExecuteDirect]
    cases h.REQ_STR_ARG 0 args <;> cases h.REQ_FUN_ARG 1 args <;> simp [Event.isCall]
  · simp only [submit, ODBCStatement.Prepare]
    cases h.REQ_STR_ARG 0 args <;> cases h.REQ_FUN_ARG 1 args <;> simp [Event.isCall]
  · simp only [submit, ODBCStatement.Bind]
    by_cases ha : (ODBCStatement.argAt args 0).IsArray = true
    · cases h.REQ_FUN_ARG 1 args <;> simp [ha, Event.isCall]
    · simp [ha, Event.isCall]

theorem freeLoop_no_call (ps : List Parameter) (i : Nat) :
    ∀ e ∈ ODBCStatement.freeLoop i ps, e.isCall = false := by
  induction ps generalizing i with
  | nil => simp [ODBCStatement.freeLoop]
  | cons p rest ih =>
    intro e he
    rw [ODBCStatement.freeLoop, List.mem_append] at he
    rcases he with he | he
    · unfold ODBCStatement.freeParam at he
      repeat' split at he
      all_goals simp at he
      all_goals simp [he, Event.isCall]
    · exact ih (i + 1) e he

theorem work_no_call (h : Host) (stmt : ODBCStatement) (d : work_data) :
    ∀ e ∈ (work h stmt d).2, e.isCall = false := by
  cases d with
  | execute d => simp [work, ODBCStatement.UV_Execute, Event.isCall]
  | executeDirect d => simp [work, ODBCStatement.UV_ExecuteDirect, Event.isCall]
  | prepare d => simp [work, ODBCStatement.UV_Prepare, Event.isCall]
  | bind d =>
    intro e he
    simp only [work, ODBCStatement.UV_Bind, List.mem_append, List.mem_map,
      List.mem_singleton] at he
    rcases he with (⟨c, _, rfl⟩ | he) | rfl
    · rfl
    · exact freeLoop_no_call d.params 0 e he
    · rfl

theorem work_cb (h : Host) (stmt : ODBCStatement) (d : work_data) :
    (work h stmt d).1.cb = d.cb := by
  cases d <;> rfl

theorem callsTo_invocations (cb : Value) (log : List Event) :
    callsTo cb log = (invocations log).countP (fun x => x.1 == cb) := by
  induction log with
  | nil => rfl
  | cons e rest ih =>
    unfold callsTo invocations at ih ⊢
    cases e <;> simp [List.countP_cons, List.filterMap_cons, ih]

theorem after_calls (h : Host) (stmt : ODBCStatement) (d : work_data)
    (ht : ∀ e c s cb, callsTo cb (h.CallbackSQLError e c s cb) = 1) :
    callsTo d.cb (after h stmt d).log = 1 := by
  by_cases hd : d.result = SQL_ERROR
  · obtain ⟨rest, hlog, hrest⟩ := after_of_error h stmt d hd
    rw [hlog]
    have h1 : callsTo d.cb
        (Event.CallbackSQLError stmt.m_hENV stmt.m_hDBC stmt.m_hSTMT d.cb
          :: (h.CallbackSQLError stmt.m_hENV stmt.m_hDBC stmt.m_hSTMT d.cb
            ++ Event.Unref :: rest))
        = callsTo d.cb (h.CallbackSQLError stmt.m_hENV stmt.m_hDBC stmt.m_hSTMT d.cb)
          + callsTo d.cb rest := by
      simp [callsTo, List.countP_cons, List.countP_append]
    rw [h1, ht, hrest]
  · rw [callsTo_invocations, (after_of_ne_error h stmt d hd).1]
    simp [List.countP_cons]

/-- C3: for a request that a method call has queued, and a translator that
invokes the callback it is given exactly once, the callback of the request is
invoked exactly once over the whole life of the request: not at all by the
method call, not at all by the work function, and exactly once by the
completion handler, which does run. -/
theorem C3_callback_exactly_once (h : Host) (op : Op) (args : List Value)
    (stmt : ODBCStatement) (req : uv_work_t)
    (ht : ∀ e c s cb, callsTo cb (h.CallbackSQLError e c s cb) = 1)
    (hq : (submit h op args stmt).queued = [req]) :
    callsTo req.data.cb (lifecycle h op args stmt).submitted.log = 0
    ∧ callsTo req.data.cb (lifecycle h op args stmt).worked = 0
    ∧ ∃ c, (lifecycle h op args stmt).completed = some c
        ∧ callsTo req.data.cb c.log = 1
        ∧ callsTo req.data.cb
            ((lifecycle h op args stmt).submitted.log ++ (lifecycle h op args stmt).worked
              ++ c.log) = 1 := by
  have h0 : callsTo req.data.cb (submit h op args stmt).log = 0 :=
    callsTo_eq_zero _ _ (submit_no_call h op args stmt)
  have h1 : callsTo req.data.cb (work h (submit h op args stmt).self req.data).2 = 0 :=
    callsTo_eq_zero _ _ (work_no_call h _ req.data)
  have h2 : callsTo req.data.cb
      (after h (submit h op args stmt).self (work h (submit h op args stmt).self req.data).1).log
      = 1 := by
    have := after_calls h (submit h op args stmt).self
      (work h (submit h op args stmt).self req.data).1 ht
    rwa [work_cb] at this
  simp only [lifecycle, hq]
  refine ⟨h0, h1, _, rfl, h2, ?_⟩
  rw [callsTo_append, callsTo_append, h0, h1, h2]

/-- C3 at `prepare("SELECT 1", cb)` on the sample statement. -/
theorem C3_callback_exactly_once_witness :
    callsTo (Value.Function 7)
      ((lifecycle sampleHost Op.Prepare [Value.Str "SELECT 1", Value.Function 7]
          sampleStmt).submitted.log) = 0
    ∧ callsTo (Value.Function 7)
      ((lifecycle sampleHost Op.Prepare [Value.Str "SELECT 1", Value.Function 7]
          sampleStmt).worked) = 0 :=
  have hw := C3_callback_exactly_once sampleHost Op.Prepare
    [Value.Str "SELECT 1", Value.Function 7] sampleStmt
    { data := work_data.prepare { cb := Value.Function 7, sql := "SELECT 1", result := 0 },
      worked := false }
    (by intro e c s cb; simp [sampleHost, callsTo, List.countP_cons])
    (by decide)
  ⟨hw.1, hw.2.1⟩

/-! ## Reference counting -/

theorem submit_refs (h : Host) (op : Op) (args : List Value) (stmt : ODBCStatement) :
    (submit h op args stmt).self.refs_ = stmt.refs_ + (submit h op args stmt).queued.length := by
  rcases submit_cases h op args stmt with ⟨hq, hs⟩ | ⟨req, hq, _, hs⟩
  · simp [hq, hs]
  · simp [hq, hs, ODBCStatement.Ref]

theorem step_refs (h : Host) (L : Loop) (a : Action) :
    (L.step h a).stmt.refs_ - (L.step h a).queue.length = L.stmt.refs_ - L.queue.length := by
  cases a with
  | call op args =>
    simp only [Loop.step, List.length_append, submit_refs h op args L.stmt]
    push_cast
    ring
  | work i =>
    simp only [Loop.step]
    cases hg : L.queue.get? i with
    | none => rfl
    | some req =>
      by_cases hw : req.worked = true
      · simp [hw]
      · simp [hw]
  | after i =>
    simp only [Loop.step]
    cases hg : L.queue.get? i with
    | none => rfl
    | some req =>
      by_cases hw : req.worked = true
      · have hi : i < L.queue.length := by
          rw [List.get?_eq_some] at hg
          exact hg.1
        have hl : (L.queue.eraseIdx i).length = L.queue.length - 1 := by
          rw [List.length_eraseIdx]
          simp [hi]
        simp only [hw, if_true, after_self, ODBCStatement.Unref, hl]
        have : 1 ≤ L.queue.length := by omega
        push_cast [this]
        ring
      · simp [hw]

theorem run_refs (h : Host) (acts : List Action) (L : Loop) :
    (L.run h acts).stmt.refs_ - (L.run h acts).queue.length = L.stmt.refs_ - L.queue.length := by
  induction acts generalizing L with
  | nil => rfl
  | cons a rest ih =>
    show ((L.step h a).run h rest).stmt.refs_ - ((L.step h a).run h rest).queue.length = _
    rw [ih, step_refs]

/-- C4: a method call that queues a request raises the reference count of the
statement by exactly one; the completion handler of the request, whatever
status the request holds, lowers it by exactly one, so that the count after
completion is the count before the call; and in every run of the dispatcher
from a state with nothing in flight, the count is its initial value plus the
number of requests in flight. -/
theorem C4_refcount_balanced (h : Host) (op : Op) (args : List Value) (stmt : ODBCStatement)
    (req : uv_work_t) (status : SQLRETURN) (acts : List Action) (log : List Event)
    (hq : (submit h op args stmt).queued = [req]) :
    (submit h op args stmt).self.refs_ = stmt.refs_ + 1
    ∧ (after h (submit h op args stmt).self (req.data.withResult status)).self.refs_
        = (submit h op args stmt).self.refs_ - 1
    ∧ (after h (submit h op args stmt).self (req.data.withResult status)).self.refs_
        = stmt.refs_
    ∧ ((lifecycle h op args stmt).completed.map (fun c => c.self.refs_)) = some stmt.refs_
    ∧ (Loop.run h { stmt := stmt, queue := [], log := log } acts).stmt.refs_
        = stmt.refs_ + (Loop.run h { stmt := stmt, queue := [], log := log } acts).queue.length := by
  have hs : (submit h op args stmt).self.refs_ = stmt.refs_ + 1 := by
    rw [submit_refs, hq]
    rfl
  refine ⟨hs, ?_, ?_, ?_, ?_⟩
  · rw [after_self]
    rfl
  · rw [after_self]
    show (submit h op args stmt).self.refs_ - 1 = _
    rw [hs]
    ring
  · simp only [lifecycle, hq, Option.map_some', after_self]
    show some ((submit h op args stmt).self.refs_ - 1) = _
    rw [hs]
    congr 1
    ring
  · have := run_refs h acts { stmt := stmt, queue := [], log := log }
    simp only [List.length_nil] at this
    omega

/-- C4 at `prepare("SELECT 1", cb)` on the sample statement, and at a run with
two requests in flight. -/
theorem C4_refcount_balanced_witness :
    (submit sampleHost Op.Prepare [Value.Str "SELECT 1", Value.Function 7] sampleStmt).self.refs_
      = sampleStmt.refs_ + 1
    ∧ (Loop.run sampleHost { stmt := sampleStmt, queue := [], log := [] }
        [Action.call Op.Execute [Value.Function 7],
          Action.call Op.Prepare [Value.Str "SELECT 1", Value.Function 8],
          Action.work 0, Action.call Op.Bind [Value.Array 1, Value.Function 9],
          Action.after 0]).stmt.refs_
      = sampleStmt.refs_ + (2 : Nat) :=
  have hw := C4_refcount_balanced sampleHost Op.Prepare
    [Value.Str "SELECT 1", Value.Function 7] sampleStmt
    { data := work_data.prepare { cb := Value.Function 7, sql := "SELECT 1", result := 0 },
      worked := false }
    SQL_ERROR
    [Action.call Op.Execute [Value.Function 7],
      Action.call Op.Prepare [Value.Str "SELECT 1", Value.Function 8],
      Action.work 0, Action.call Op.Bind [Value.Array 1, Value.Function 9],
      Action.after 0]
    [] (by decide)
  ⟨hw.1, hw.2.2.2.2⟩

end NodeOdbc
